import Mathlib

/-!
# Verification of the Adidas sales-dashboard filtering and aggregation pipeline

This file gives a shallow embedding of the data-transformation core of
`Dashbaord.py`: the loader's date parsing and derived time fields, the sidebar
filter block, the `groupby`/`sum` summary tables, the KPI computations and the
`format_sales` magnitude formatter.  Presentation code (Streamlit/Plotly calls,
markup) carries no logic and is not modelled.

Modelling conventions:
* A pandas row becomes a `Row` structure.  Categorical columns are
  `Option String` (`none` models a missing/NaN cell); `isin` on a NaN cell is
  `false`, and `groupby` drops rows whose key is NaN, exactly as in pandas.
* Invoice timestamps are day-granular: the spreadsheet's invoice dates parse to
  midnight timestamps, so a timestamp is the integer day number since
  1970-01-01 (`Option ℤ`, `none` models NaT).  `pd.Timedelta(days=1)` is `+ 1`.
* Currency amounts (`TotalSales`) are integers (the dataset holds whole-dollar
  amounts); none of the verified properties depends on sub-unit precision.
  The only true division in the script, `total_sales / total_orders`, is
  modelled exactly, in `ℚ`.
* `DataFrame.sort_values(by, ascending)` computes a stable ascending argsort of
  the key column and, for `ascending=False`, reverses it (pandas `nargsort`);
  it is modelled as Mathlib's (stable) `List.insertionSort`, reversed for the
  descending case.  `groupby(key)` sorts the distinct keys ascending.
* Python string comparison is codepoint-lexicographic; `charListLe` below is
  that order.
-/

namespace Dash

/-- Codepoint-lexicographic string comparison, as Python and numpy compare
`object` (string) values: compare characters left to right by code point, a
prefix sorts before its extensions. -/
def charListLe : List Char → List Char → Bool
  | [], _ => true
  | _ :: _, [] => false
  | a :: as, b :: bs =>
    if a.toNat < b.toNat then true
    else if b.toNat < a.toNat then false
    else charListLe as bs

/-- Lexicographic order on strings, as a relation usable by `List.insertionSort`. -/
def strRel (a b : String) : Prop := charListLe a.data b.data = true

instance : DecidableRel strRel :=
  fun a b => inferInstanceAs (Decidable (charListLe a.data b.data = true))

/-- Helper for `dedupFirst`, carrying the set of values already emitted. -/
def dedupFirstAux (seen : List String) : List String → List String
  | [] => []
  | a :: t => if a ∈ seen then dedupFirstAux seen t else a :: dedupFirstAux (a :: seen) t

/-- Distinct values of a list in order of first occurrence, as
`pandas.unique` returns them. -/
def dedupFirst (l : List String) : List String := dedupFirstAux [] l

/-- One row of the loaded dataset, after `load_data`'s column normalisation.
Categorical cells are `Option String` (`none` = NaN), the invoice timestamp is
an `Option ℤ` day number (`none` = NaT), and the measures are integers. -/
structure Row where
  invoiceDate : Option ℤ
  region : Option String
  retailer : Option String
  state : Option String
  city : Option String
  product : Option String
  salesMethod : Option String
  unitsSold : ℤ
  totalSales : ℤ
deriving DecidableEq, Repr

/-- Civil-calendar (year, month, day) of a day number counted from 1970-01-01,
the Gregorian conversion used by pandas timestamps. -/
def civilFromDays (z : ℤ) : ℤ × ℕ × ℕ :=
  let znat := (z + 719468).toNat
  let era := znat / 146097
  let doe := znat % 146097
  let yoe := (doe - doe / 1460 + doe / 36524 - doe / 146096) / 365
  let y : ℤ := (yoe : ℤ) + (era : ℤ) * 400
  let doy := doe - (365 * yoe + yoe / 4 - yoe / 100)
  let mp := (5 * doy + 2) / 153
  let d := doy - (153 * mp + 2) / 5 + 1
  let m := if mp < 10 then mp + 3 else mp - 9
  (if m ≤ 2 then y + 1 else y, m, d)

/-- Three-letter English month abbreviation, `strftime`'s `%b`. -/
def monthAbbrev : ℕ → String
  | 1 => "Jan" | 2 => "Feb" | 3 => "Mar" | 4 => "Apr"
  | 5 => "May" | 6 => "Jun" | 7 => "Jul" | 8 => "Aug"
  | 9 => "Sep" | 10 => "Oct" | 11 => "Nov" | 12 => "Dec"
  | _ => ""

/-- The apostrophe character, written via its code point. -/
def tick : String := String.singleton (Char.ofNat 39)

/-- Zero-padded two-digit rendering of `strftime`'s `%y` (year modulo 100). -/
def twoDigits (n : ℕ) : String := (if n < 10 then "0" else "") ++ toString n

/-- Rendering of a day number by `strftime("%b '%y")`, the `Month_Year` label
computed at load time (`load_data`, lines 118-121). -/
def strftimeMonYY (z : ℤ) : String :=
  let c := civilFromDays z
  monthAbbrev c.2.1 ++ " " ++ tick ++ twoDigits (c.1.toNat % 100)

/-- Chronological month key (months since year 0) of a day number; two days
compare equal under `monthKey` iff they lie in the same calendar month. -/
def monthKey (z : ℤ) : ℤ :=
  let c := civilFromDays z
  c.1 * 12 + (c.2.1 : ℤ)

/-- Derived `Month_Year` cell of a row: the label of its invoice date, NaN
(`none`) when the date is NaT. -/
def monthLabel (r : Row) : Option String := r.invoiceDate.map strftimeMonYY

/-- Sum of measure `m` over the rows of `df` whose key-cell `f` equals `some k`:
the value a pandas `groupby(f)[m].sum()` assigns to group `k`. -/
def groupSum (f : Row → Option String) (m : Row → ℤ) (df : List Row) (k : String) : ℤ :=
  ((df.filter fun r => decide (f r = some k)).map m).sum

/-- The sorted distinct non-NaN values of a column:
`sorted(df[col].dropna().unique())`, as the sidebar builds each filter's option
list (lines 171-189), and also the group keys of a `groupby` on that column. -/
def colOptions (f : Row → Option String) (df : List Row) : List String :=
  List.insertionSort strRel (dedupFirst (df.filterMap f))

/-- The table `df.groupby(f)[m].sum().reset_index()`: one `(key, sum)` row per
distinct non-NaN key, keys sorted ascending (pandas `groupby` default
`sort=True`); rows whose key-cell is NaN are dropped from the grouping. -/
def groupbySum (f : Row → Option String) (m : Row → ℤ) (df : List Row) :
    List (String × ℤ) :=
  (colOptions f df).map fun k => (k, groupSum f m df k)

/-- Ordering of summary rows by their summed measure. -/
def valLe (a b : String × ℤ) : Prop := a.2 ≤ b.2

instance : DecidableRel valLe := fun a b => inferInstanceAs (Decidable (a.2 ≤ b.2))

instance : IsTotal (String × ℤ) valLe := ⟨fun a b => Int.le_total a.2 b.2⟩

instance : IsTrans (String × ℤ) valLe := ⟨fun _ _ _ h1 h2 => le_trans h1 h2⟩

/-- Ordering of summary rows by their key label. -/
def labelLe (a b : String × ℤ) : Prop := strRel a.1 b.1

instance : DecidableRel labelLe := fun a b => inferInstanceAs (Decidable (strRel a.1 b.1))

/-- The model of `sort_values(measure, ascending=False)`: pandas `nargsort`
computes an ascending argsort (stable for the small frames at hand, where
numpy's introsort is insertion sort) and reverses it when `ascending=False`. -/
def sortValuesDesc (l : List (String × ℤ)) : List (String × ℤ) :=
  (List.insertionSort valLe l).reverse

/-- The model of `sort_values(key)` on a summary table: stable ascending sort
by the key column. -/
def sortValuesByLabel (l : List (String × ℤ)) : List (String × ℤ) :=
  List.insertionSort labelLe l

/-- The retailer summary `data_retailer` (lines 282-287):
`groupby("Retailer")["TotalSales"].sum().reset_index().sort_values("TotalSales", ascending=False)`. -/
def data_retailer (df : List Row) : List (String × ℤ) :=
  sortValuesDesc (groupbySum Row.retailer Row.totalSales df)

/-- The monthly trend summary `result_time` (lines 333-338):
`groupby("Month_Year")["TotalSales"].sum().reset_index().sort_values("Month_Year")`. -/
def result_time (df : List Row) : List (String × ℤ) :=
  sortValuesByLabel (groupbySum monthLabel Row.totalSales df)

/-- The product summary `prod_data` (lines 459-466):
`groupby("Product")["TotalSales"].sum().reset_index().sort_values("TotalSales", ascending=False).head(10)`. -/
def prod_data (df : List Row) : List (String × ℤ) :=
  (sortValuesDesc (groupbySum Row.product Row.totalSales df)).take 10

/-- Modelled from the spec words for the product summary ordering, for
comparison with `prod_data`: descending by summed `total_sales`, truncated to
the top 10 entries, ties broken by stable input order (a stable descending
sort of the grouped table). -/
def prodSummarySpec (df : List Row) : List (String × ℤ) :=
  (List.insertionSort (fun a b : String × ℤ => b.2 ≤ a.2)
    (groupbySum Row.product Row.totalSales df)).take 10

instance : DecidableRel (fun a b : String × ℤ => b.2 ≤ a.2) :=
  fun a b => inferInstanceAs (Decidable (b.2 ≤ a.2))

/-- A user-selected invoice date range: `st.date_input` hands the script either
a `(start, end)` tuple or, while the user has picked only one date, a single
date.  Dates are day numbers. -/
inductive DateRange where
  | range : ℤ → ℤ → DateRange
  | single : ℤ → DateRange
deriving DecidableEq

/-- The `[start_date, end_date)` pair the filter block computes (lines
217-222): a tuple `(s, e)` becomes `[s, e + 1 day)`, a single picked date `d`
becomes `[d, d + 1 day)`. -/
def dateBounds : DateRange → ℤ × ℤ
  | .range s e => (s, e + 1)
  | .single d => (d, d + 1)

/-- The date-range predicate of line 225: `InvoiceDate >= start_date` and
`InvoiceDate < end_date`. -/
def dateTest (dr : DateRange) (t : ℤ) : Bool :=
  decide ((dateBounds dr).1 ≤ t) && decide (t < (dateBounds dr).2)

/-- Row-level date test: a NaT invoice date compares `False` against both
bounds in pandas, so such a row never passes the date filter. -/
def rowDateTest (dr : DateRange) (r : Row) : Bool :=
  match r.invoiceDate with
  | some t => dateTest dr t
  | none => false

/-- The date-filter block (lines 216-226); `none` models `date_range is None`
(no `InvoiceDate` column, hence no date widget). -/
def applyDateFilter (dr : Option DateRange) (df : List Row) : List Row :=
  match dr with
  | none => df
  | some dr => df.filter (rowDateTest dr)

/-- The `isin(selected)` membership test of lines 208-214: a NaN cell is never
a member. -/
def membTest (sel : List String) (v : Option String) : Bool :=
  match v with
  | some s => sel.contains s
  | none => false

/-- One membership-filter stage, e.g. lines 207-208:
`if region_list: df_filtered = df_filtered[df_filtered["Region"].isin(selected_region)]`.
The gate is the truthiness of the *option list* of the dimension (built from
the loaded frame), not of the user's selection. -/
def membershipStage (options sel : List String) (f : Row → Option String)
    (df : List Row) : List Row :=
  if options = [] then df else df.filter fun r => membTest sel (f r)

/-- The user's current filter selections, one `FilterCriteria` value: the
multiselect choices for region/retailer/state and the date-input value. -/
structure Criteria where
  selRegion : List String
  selRetailer : List String
  selState : List String
  dateRange : Option DateRange
deriving DecidableEq

/-- The whole filter block (lines 204-226) applied to a loaded frame: region,
retailer and state membership stages in order, each gated on that dimension's
option list as computed from the input frame, then the date-range filter. -/
def applyFilters (c : Criteria) (df : List Row) : List Row :=
  applyDateFilter c.dateRange
    (membershipStage (colOptions Row.state df) c.selState Row.state
      (membershipStage (colOptions Row.retailer df) c.selRetailer Row.retailer
        (membershipStage (colOptions Row.region df) c.selRegion Row.region df)))

/-- The KPI `total_sales` (line 231): sum of `TotalSales` over the filtered
frame. -/
def total_sales (df : List Row) : ℤ := (df.map Row.totalSales).sum

/-- The KPI `total_orders` (line 233): `len(df_filtered)`. -/
def total_orders (df : List Row) : ℕ := df.length

/-- The KPI `avg_order_value` (line 234):
`total_sales / total_orders if total_orders > 0 else 0`, with Python's true
division. -/
def avg_order_value (df : List Row) : ℚ :=
  if 0 < total_orders df then (total_sales df : ℚ) / (total_orders df : ℚ) else 0

/-- One raw spreadsheet cell of a date column, as `pd.to_datetime` sees it: it
either parses to a timestamp, is empty (becomes NaT in any mode), or is
unparseable. -/
inductive RawCell where
  | date : ℤ → RawCell
  | empty : RawCell
  | bad : RawCell
deriving DecidableEq

/-- Default-mode `pd.to_datetime` (line 101): an unparseable value raises. -/
def to_datetime_strict : RawCell → Except String (Option ℤ)
  | .date t => .ok (some t)
  | .empty => .ok none
  | .bad => .error "could not parse date"

/-- Lenient `pd.to_datetime(.., errors="coerce")` (line 103): an unparseable
value becomes NaT. -/
def to_datetime_coerce : RawCell → Option ℤ
  | .date t => some t
  | .empty => none
  | .bad => none

/-- The date columns of an input spreadsheet: the legacy `"Invoice Date"`
column and the canonical `"InvoiceDate"` column, each possibly absent. -/
structure RawTable where
  invoiceDateLegacy : Option (List RawCell)
  invoiceDateCanon : Option (List RawCell)

/-- The invoice-date normalisation of `load_data` (lines 100-103): with only
the legacy `"Invoice Date"` column present, parse it in default (raising)
mode; otherwise, if `"InvoiceDate"` is present, parse it with
`errors="coerce"`; with neither, the frame has no `InvoiceDate` column
(`.ok none`). -/
def load_invoice_dates (t : RawTable) : Except String (Option (List (Option ℤ))) :=
  match t.invoiceDateLegacy, t.invoiceDateCanon with
  | some col, none => (col.mapM to_datetime_strict).map some
  | _, some col => .ok (some (col.map to_datetime_coerce))
  | none, none => .ok none

/-- Round-half-even integer division `a / b` for `b > 0`: the rounding Python's
fixed-point float formatting applies. -/
def divRoundHalfEven (a b : ℤ) : ℤ :=
  let q := a.fdiv b
  let r := a - q * b
  if 2 * r < b then q
  else if b < 2 * r then q + 1
  else if q % 2 = 0 then q else q + 1

/-- Helper for `commaGroup`: given the digits in reverse order, insert a comma
after every third digit. -/
def groupRev : List Char → List Char
  | c1 :: c2 :: c3 :: c4 :: rest => c1 :: c2 :: c3 :: Char.ofNat 44 :: groupRev (c4 :: rest)
  | l => l

/-- Decimal rendering of a natural number with thousands separators, as
Python's `,` format flag produces. -/
def commaGroup (n : ℕ) : String :=
  ⟨(groupRev (toString n).data.reverse).reverse⟩

/-- Python's `f"{v:,.0f}"` on an exact integer value: optional sign and
comma-grouped digits. -/
def fmtComma0 (v : ℤ) : String :=
  (if v < 0 then "-" else "") ++ commaGroup v.natAbs

/-- Python's `f"{v / scale:,.1f}"` for integer `v` and positive integer
`scale`: the quotient rounded half-even to one decimal place, rendered with
thousands separators and one digit after the point.  (Python divides as
binary floats; on the whole-dollar magnitudes at hand the rounded decimal
agrees with exact rational rounding.) -/
def fmtDiv1 (v scale : ℤ) : String :=
  let n := divRoundHalfEven (v * 10) scale
  (if v < 0 then "-" else "") ++ commaGroup (n.natAbs / 10) ++ "." ++ toString (n.natAbs % 10)

/-- The treemap hover formatter `format_sales` (lines 529-536): empty string on
NaN, `$X.X M` at or above one million, `$X.X K` at or above one thousand,
plain `$X` otherwise. -/
def format_sales (v : Option ℤ) : String :=
  match v with
  | none => ""
  | some value =>
    if 1000000 ≤ value then "$" ++ fmtDiv1 value 1000000 ++ " M"
    else if 1000 ≤ value then "$" ++ fmtDiv1 value 1000 ++ " K"
    else "$" ++ fmtComma0 value

/-- Modelled from the spec words, for comparison with `format_sales`: values at
or above 1,000,000 render as `"$X.XM"`, at or above 1,000 as `"$X.XK"`,
otherwise as `"$X"` - no separator between the number and the magnitude
letter. -/
def formatSalesSpecLiteral (v : Option ℤ) : String :=
  match v with
  | none => ""
  | some value =>
    if 1000000 ≤ value then "$" ++ fmtDiv1 value 1000000 ++ "M"
    else if 1000 ≤ value then "$" ++ fmtDiv1 value 1000 ++ "K"
    else "$" ++ fmtComma0 value

/-- The amended rendering contract, spelled out independently of
`format_sales`: the magnitude suffix, a space followed by `M` over a million
and a space followed by `K` over a thousand, and the scaled one-decimal (or
plain) dollar figure it follows. -/
def formatSalesAmended (v : Option ℤ) : String :=
  match v with
  | none => ""
  | some value =>
    let suffix : String := if 1000000 ≤ value then " M" else if 1000 ≤ value then " K" else ""
    let body : String :=
      if 1000000 ≤ value then fmtDiv1 value 1000000
      else if 1000 ≤ value then fmtDiv1 value 1000
      else fmtComma0 value
    "$" ++ body ++ suffix

/-! ## Basic lemmas about `dedupFirst`, `colOptions` and group sums -/

lemma mem_dedupFirstAux {x : String} {seen l : List String} :
    x ∈ dedupFirstAux seen l ↔ x ∈ l ∧ x ∉ seen := by
  induction l generalizing seen with
  | nil => simp [dedupFirstAux]
  | cons a t ih =>
    by_cases h : a ∈ seen
    · simp only [dedupFirstAux, if_pos h, ih, List.mem_cons]
      constructor
      · rintro ⟨hx, hs⟩
        exact ⟨Or.inr hx, hs⟩
      · rintro ⟨hx | hx, hs⟩
        · exact absurd (hx ▸ h) hs
        · exact ⟨hx, hs⟩
    · simp only [dedupFirstAux, if_neg h, List.mem_cons, ih]
      by_cases hxa : x = a
      · subst hxa
        simp [h]
      · simp [hxa]

lemma nodup_dedupFirstAux (seen l : List String) : (dedupFirstAux seen l).Nodup := by
  induction l generalizing seen with
  | nil => simp [dedupFirstAux]
  | cons a t ih =>
    by_cases h : a ∈ seen
    · simpa only [dedupFirstAux, if_pos h] using ih seen
    · simp only [dedupFirstAux, if_neg h, List.nodup_cons]
      refine ⟨fun hmem => ?_, ih _⟩
      exact (mem_dedupFirstAux.mp hmem).2 (List.mem_cons_self a seen)

lemma mem_dedupFirst {x : String} {l : List String} : x ∈ dedupFirst l ↔ x ∈ l := by
  simp [dedupFirst, mem_dedupFirstAux]

lemma nodup_dedupFirst (l : List String) : (dedupFirst l).Nodup := nodup_dedupFirstAux [] l

lemma dedupFirst_eq_nil_iff {l : List String} : dedupFirst l = [] ↔ l = [] := by
  constructor
  · intro h
    cases l with
    | nil => rfl
    | cons a t =>
      exfalso
      have ha : a ∈ dedupFirst (a :: t) := mem_dedupFirst.mpr (List.mem_cons_self a t)
      rw [h] at ha
      exact (List.not_mem_nil a) ha
  · rintro rfl
    rfl

lemma mem_colOptions {f : Row → Option String} {df : List Row} {k : String} :
    k ∈ colOptions f df ↔ ∃ r ∈ df, f r = some k := by
  unfold colOptions
  rw [(List.perm_insertionSort strRel _).mem_iff, mem_dedupFirst, List.mem_filterMap]

lemma nodup_colOptions (f : Row → Option String) (df : List Row) :
    (colOptions f df).Nodup :=
  (List.perm_insertionSort strRel _).symm.nodup (nodup_dedupFirst _)

lemma colOptions_eq_nil_iff {f : Row → Option String} {df : List Row} :
    colOptions f df = [] ↔ ∀ r ∈ df, f r = none := by
  unfold colOptions
  constructor
  · intro h
    have h1 : dedupFirst (df.filterMap f) = [] := by
      have hlen := (List.perm_insertionSort strRel (dedupFirst (df.filterMap f))).length_eq
      rw [h] at hlen
      exact List.length_eq_zero.mp hlen.symm
    exact List.filterMap_eq_nil_iff.mp (dedupFirst_eq_nil_iff.mp h1)
  · intro h
    rw [List.filterMap_eq_nil_iff.mpr h]
    rfl

lemma groupSum_nil (f : Row → Option String) (m : Row → ℤ) (k : String) :
    groupSum f m [] k = 0 := rfl

lemma groupSum_cons (f : Row → Option String) (m : Row → ℤ) (r : Row) (df : List Row)
    (k : String) :
    groupSum f m (r :: df) k = (if f r = some k then m r else 0) + groupSum f m df k := by
  unfold groupSum
  by_cases h : f r = some k
  · rw [List.filter_cons_of_pos (by simpa using h), if_pos h]
    simp
  · rw [List.filter_cons_of_neg (by simpa using h), if_neg h]
    simp

lemma sum_map_ite_single {c : ℤ} {k0 : String} {keys : List String}
    (hnd : keys.Nodup) (hk : k0 ∈ keys) :
    (keys.map fun k => if k0 = k then c else 0).sum = c := by
  induction keys with
  | nil => cases hk
  | cons a t ih =>
    rcases List.mem_cons.mp hk with h | h
    · subst h
      rw [List.map_cons, List.sum_cons, if_pos rfl]
      have hz : ∀ x ∈ t.map fun k => if k0 = k then c else 0, x = 0 := by
        intro x hx
        rcases List.mem_map.mp hx with ⟨k, hkt, rfl⟩
        have hne : k0 ≠ k := fun he => (List.nodup_cons.mp hnd).1 (he ▸ hkt)
        rw [if_neg hne]
      rw [List.sum_eq_zero hz, add_zero]
    · have hne : k0 ≠ a := fun he => (List.nodup_cons.mp hnd).1 (he ▸ h)
      rw [List.map_cons, List.sum_cons, if_neg hne, ih (List.nodup_cons.mp hnd).2 h,
        zero_add]

lemma sum_groupSum (f : Row → Option String) (m : Row → ℤ) (df : List Row)
    (keys : List String) (hnd : keys.Nodup)
    (hcov : ∀ r ∈ df, ∃ k, f r = some k ∧ k ∈ keys) :
    (keys.map fun k => groupSum f m df k).sum = (df.map m).sum := by
  induction df with
  | nil =>
    rw [List.map_nil, List.sum_nil]
    apply List.sum_eq_zero
    intro x hx
    rcases List.mem_map.mp hx with ⟨k, _, rfl⟩
    rfl
  | cons r t ih =>
    obtain ⟨k0, hk0, hmem⟩ := hcov r (List.mem_cons_self r t)
    have hcov2 : ∀ x ∈ t, ∃ k, f x = some k ∧ k ∈ keys :=
      fun x hx => hcov x (List.mem_cons_of_mem r hx)
    calc (keys.map fun k => groupSum f m (r :: t) k).sum
        = (keys.map fun k => (if f r = some k then m r else 0) + groupSum f m t k).sum := by
          simp only [groupSum_cons]
      _ = (keys.map fun k => if f r = some k then m r else 0).sum
            + (keys.map fun k => groupSum f m t k).sum := List.sum_map_add
      _ = m r + (t.map m).sum := by
          rw [ih hcov2]
          congr 1
          simp only [hk0, Option.some.injEq]
          exact sum_map_ite_single hnd hmem
      _ = ((r :: t).map m).sum := by simp

lemma groupbySum_snd_sum {f : Row → Option String} {m : Row → ℤ} {df : List Row}
    (hall : ∀ r ∈ df, (f r).isSome) :
    ((groupbySum f m df).map Prod.snd).sum = (df.map m).sum := by
  unfold groupbySum
  rw [List.map_map]
  apply sum_groupSum
  · exact nodup_colOptions f df
  · intro r hr
    obtain ⟨k, hk⟩ := Option.isSome_iff_exists.mp (hall r hr)
    exact ⟨k, hk, mem_colOptions.mpr ⟨r, hr, hk⟩⟩

/-- The retailer summary preserves the filtered total: sorting is a
permutation, and grouping partitions the rows when every retailer cell is
present. -/
lemma data_retailer_sum {df : List Row} (hall : ∀ r ∈ df, (Row.retailer r).isSome) :
    ((data_retailer df).map Prod.snd).sum = total_sales df := by
  unfold data_retailer sortValuesDesc total_sales
  have hperm :
      ((List.insertionSort valLe (groupbySum Row.retailer Row.totalSales df)).reverse.map
        Prod.snd).Perm ((groupbySum Row.retailer Row.totalSales df).map Prod.snd) :=
    ((List.reverse_perm _).trans (List.perm_insertionSort valLe _)).map Prod.snd
  rw [hperm.sum_eq, groupbySum_snd_sum hall]

/-! ## Lemmas about the filter stages -/

lemma membershipStage_of_nil {o s : List String} {f : Row → Option String} {df : List Row}
    (h : o = []) : membershipStage o s f df = df := by
  unfold membershipStage
  rw [if_pos h]

lemma membershipStage_eq_self {o s : List String} {f : Row → Option String} {df : List Row}
    (h : ∀ r ∈ df, membTest s (f r) = true) : membershipStage o s f df = df := by
  unfold membershipStage
  split
  · rfl
  · exact List.filter_eq_self.mpr h

lemma mem_membershipStage {o s : List String} {f : Row → Option String} {df : List Row}
    {r : Row} (h : r ∈ membershipStage o s f df) : r ∈ df := by
  unfold membershipStage at h
  split at h
  · exact h
  · exact List.mem_of_mem_filter h

lemma membershipStage_prop {o s : List String} {f : Row → Option String} {df : List Row}
    {r : Row} (ho : o ≠ []) (h : r ∈ membershipStage o s f df) :
    membTest s (f r) = true := by
  unfold membershipStage at h
  rw [if_neg ho] at h
  exact (List.mem_filter.mp h).2

lemma membershipStage_nil (o s : List String) (f : Row → Option String) :
    membershipStage o s f [] = [] := by
  unfold membershipStage
  split
  · rfl
  · exact List.filter_nil _

lemma mem_applyDateFilter {dr : Option DateRange} {df : List Row} {r : Row}
    (h : r ∈ applyDateFilter dr df) : r ∈ df := by
  cases dr with
  | none => exact h
  | some d => exact List.mem_of_mem_filter h

lemma applyDateFilter_prop {dr : DateRange} {df : List Row} {r : Row}
    (h : r ∈ applyDateFilter (some dr) df) : rowDateTest dr r = true :=
  List.of_mem_filter h

lemma applyDateFilter_eq_self {dr : DateRange} {df : List Row}
    (h : ∀ r ∈ df, rowDateTest dr r = true) : applyDateFilter (some dr) df = df :=
  List.filter_eq_self.mpr h

lemma applyDateFilter_nil (dr : Option DateRange) : applyDateFilter dr [] = [] := by
  cases dr <;> rfl

/-! ## Sample rows for the concrete theorems -/

/-- A fully populated sample transaction row (invoice date 2023-01-15). -/
def rowNY : Row :=
  { invoiceDate := some 19372
    region := some "West"
    retailer := some "Foot Locker"
    state := some "New York"
    city := some "New York"
    product := some "Apparel"
    salesMethod := some "Online"
    unitsSold := 2
    totalSales := 100 }

/-- The sample row with a missing (NaN) region cell. -/
def rowNoRegion : Row := { rowNY with region := none }

/-! ## Claim theorems: filtering -/

/-- C7. Filter application is idempotent: applying the same criteria to an
already-filtered frame changes nothing.  Every surviving row passes each
membership test that was applied (and a stage skipped because a dimension had
no values is skipped again on the subset), and every surviving row passes the
date test. -/
theorem C7_filtering_idempotent (c : Criteria) (df : List Row) :
    applyFilters c (applyFilters c df) = applyFilters c df := by
  generalize hgdef : applyFilters c df = g
  have hg3 : ∀ r ∈ g,
      r ∈ membershipStage (colOptions Row.state df) c.selState Row.state
        (membershipStage (colOptions Row.retailer df) c.selRetailer Row.retailer
          (membershipStage (colOptions Row.region df) c.selRegion Row.region df)) := by
    intro r hr
    rw [← hgdef] at hr
    exact mem_applyDateFilter hr
  have hg2 : ∀ r ∈ g,
      r ∈ membershipStage (colOptions Row.retailer df) c.selRetailer Row.retailer
        (membershipStage (colOptions Row.region df) c.selRegion Row.region df) :=
    fun r hr => mem_membershipStage (hg3 r hr)
  have hg1 : ∀ r ∈ g,
      r ∈ membershipStage (colOptions Row.region df) c.selRegion Row.region df :=
    fun r hr => mem_membershipStage (hg2 r hr)
  have hgdf : ∀ r ∈ g, r ∈ df := fun r hr => mem_membershipStage (hg1 r hr)
  have t1 : membershipStage (colOptions Row.region g) c.selRegion Row.region g = g := by
    by_cases h : colOptions Row.region df = []
    · apply membershipStage_of_nil
      rw [colOptions_eq_nil_iff] at h ⊢
      exact fun r hr => h r (hgdf r hr)
    · exact membershipStage_eq_self fun r hr => membershipStage_prop h (hg1 r hr)
  have t2 : membershipStage (colOptions Row.retailer g) c.selRetailer Row.retailer g = g := by
    by_cases h : colOptions Row.retailer df = []
    · apply membershipStage_of_nil
      rw [colOptions_eq_nil_iff] at h ⊢
      exact fun r hr => h r (hgdf r hr)
    · exact membershipStage_eq_self fun r hr => membershipStage_prop h (hg2 r hr)
  have t3 : membershipStage (colOptions Row.state g) c.selState Row.state g = g := by
    by_cases h : colOptions Row.state df = []
    · apply membershipStage_of_nil
      rw [colOptions_eq_nil_iff] at h ⊢
      exact fun r hr => h r (hgdf r hr)
    · exact membershipStage_eq_self fun r hr => membershipStage_prop h (hg3 r hr)
  have t4 : applyDateFilter c.dateRange g = g := by
    cases hdr : c.dateRange with
    | none => rfl
    | some dr =>
      apply applyDateFilter_eq_self
      intro r hr
      rw [← hgdef] at hr
      simp only [applyFilters, hdr] at hr
      exact applyDateFilter_prop hr
  show applyFilters c g = g
  simp only [applyFilters]
  rw [t1, t2, t3, t4]

/-- C5. A date range denoting the single day `d` - whether the widget hands
the script a single date or the degenerate tuple `(d, d)` - is normalised to
the half-open interval `[d, d+1)`, and the date filter then keeps exactly the
rows whose invoice date is day `d`. -/
theorem C5_single_day_selection (df : List Row) (d : ℤ) :
    applyDateFilter (some (DateRange.single d)) df
        = df.filter (fun r => decide (r.invoiceDate = some d))
  ∧ applyDateFilter (some (DateRange.range d d)) df
        = df.filter (fun r => decide (r.invoiceDate = some d)) := by
  constructor <;>
  · show List.filter _ df = _
    apply List.filter_congr
    intro r _
    cases h : r.invoiceDate with
    | none => simp [rowDateTest, h]
    | some t =>
      simp only [rowDateTest, h, dateTest, dateBounds, Option.some.injEq]
      rw [← Bool.decide_and, decide_eq_decide]
      omega

/-- C2, counterexample. A criteria whose region allowed-set is empty does not
leave the region dimension unrestricted: with the sample row loaded (so the
region option list is non-empty), the filter block returns the empty frame. -/
theorem C2_counterexample :
    applyFilters ⟨[], ["Foot Locker"], ["New York"], none⟩ [rowNY] = []
  ∧ [rowNY] ≠ ([] : List Row) := by decide

/-- C2, amended. The no-restriction behaviour of a membership filter is gated
on the dimension's option list (the distinct non-missing values present in the
loaded data), not on the user's allowed-set: when the option list is empty the
stage passes every record through, and when it is non-empty an empty
allowed-set excludes every record. -/
theorem C2_empty_selection_behaviour (c : Criteria) (df : List Row) :
    (colOptions Row.region df = [] →
      membershipStage (colOptions Row.region df) c.selRegion Row.region df = df)
  ∧ (colOptions Row.region df ≠ [] → c.selRegion = [] → applyFilters c df = []) := by
  constructor
  · exact membershipStage_of_nil
  · intro h hsel
    have h1 : membershipStage (colOptions Row.region df) c.selRegion Row.region df = [] := by
      unfold membershipStage
      rw [if_neg h]
      apply List.filter_eq_nil_iff.mpr
      intro r _
      rw [hsel]
      cases Row.region r <;> simp [membTest]
    simp only [applyFilters]
    rw [h1, membershipStage_nil, membershipStage_nil, applyDateFilter_nil]

/-- C2, witness for the amended statement: with every region cell missing the
region stage passes the frame through unchanged, and with a region value
present but an empty region selection the whole filter block returns the
empty frame. -/
theorem C2_empty_selection_witness :
    membershipStage (colOptions Row.region [rowNoRegion]) [] Row.region [rowNoRegion]
        = [rowNoRegion]
  ∧ applyFilters ⟨[], ["Foot Locker"], ["New York"], some (DateRange.single 19372)⟩
        [rowNY] = [] :=
  ⟨(C2_empty_selection_behaviour ⟨[], ["Foot Locker"], ["New York"], none⟩
      [rowNoRegion]).1 (by decide),
   (C2_empty_selection_behaviour
      ⟨[], ["Foot Locker"], ["New York"], some (DateRange.single 19372)⟩ [rowNY]).2
      (by decide) rfl⟩

/-! ## Claim theorems: aggregation -/

/-- C4. A complete grouping - here the retailer summary, with every retailer
cell present - preserves the filtered total: the summary's summed
`TotalSales` add up to the `total_sales` KPI of the frame, no row dropped or
double-counted. -/
theorem C4_grouping_preserves_total (df : List Row) (_hne : df ≠ [])
    (hall : ∀ r ∈ df, (Row.retailer r).isSome) :
    ((data_retailer df).map Prod.snd).sum = total_sales df :=
  data_retailer_sum hall

/-- Sample rows of the spec's retailer example: (A, 100, West), (A, 50, East),
(B, 200, West). -/
def rowA1 : Row := { rowNY with retailer := some "A", totalSales := 100, region := some "West" }

/-- Second sample row of the spec's retailer example. -/
def rowA2 : Row := { rowNY with retailer := some "A", totalSales := 50, region := some "East" }

/-- Third sample row of the spec's retailer example. -/
def rowB : Row := { rowNY with retailer := some "B", totalSales := 200, region := some "West" }

/-- C4, witness: the retailer example's three rows are non-empty with all
retailer cells present, and the summary total equals the KPI total. -/
theorem C4_grouping_witness :
    ([rowA1, rowA2, rowB] ≠ ([] : List Row)
      ∧ ∀ r ∈ [rowA1, rowA2, rowB], (Row.retailer r).isSome)
  ∧ ((data_retailer [rowA1, rowA2, rowB]).map Prod.snd).sum
      = total_sales [rowA1, rowA2, rowB] :=
  ⟨⟨by decide, by decide⟩, C4_grouping_preserves_total _ (by decide) (by decide)⟩

/-- Sample row dated 2023-01-15 with 5 dollars of sales. -/
def rowJan : Row := { rowNY with invoiceDate := some 19372, totalSales := 5 }

/-- Sample row dated 2023-04-10 with 7 dollars of sales. -/
def rowApr : Row := { rowNY with invoiceDate := some 19457, totalSales := 7 }

/-- C1. The monthly trend summary sorts by the literal `"%b '%y"` label
string: with one January 2023 row and one April 2023 row, the April row comes
first (its label is lexically smaller) although its month is chronologically
later, so the table is not in ascending chronological order. -/
theorem C1_monthly_trend_sorts_lexically :
    result_time [rowJan, rowApr]
        = [(strftimeMonYY 19457, 7), (strftimeMonYY 19372, 5)]
  ∧ strftimeMonYY 19372 = "Jan " ++ tick ++ "23"
  ∧ strftimeMonYY 19457 = "Apr " ++ tick ++ "23"
  ∧ monthKey 19372 < monthKey 19457 := by decide

/-! ## Claim theorems: loading and missing dates -/

/-- C3, counterexample. Under the legacy `"Invoice Date"` naming convention an
unparseable date value raises instead of being coerced: the same cell is
coerced to missing under the canonical `"InvoiceDate"` convention. -/
theorem C3_counterexample :
    load_invoice_dates ⟨some [RawCell.bad], none⟩ = Except.error "could not parse date"
  ∧ load_invoice_dates ⟨none, some [RawCell.bad]⟩ = Except.ok (some [none]) :=
  ⟨rfl, rfl⟩

/-- C3, amended. Coercion of unparseable dates to missing holds on the
canonical `"InvoiceDate"` path (which never raises); and a row whose invoice
date is missing is excluded from the month-bucketed aggregation while still
contributing to the retailer aggregation of the same frame. -/
theorem C3_missing_dates_behaviour (t : RawTable) (col : List RawCell) (df : List Row)
    (r : Row) (hcanon : t.invoiceDateCanon = some col) (hnone : r.invoiceDate = none)
    (hall : ∀ x ∈ r :: df, (Row.retailer x).isSome) :
    load_invoice_dates t = Except.ok (some (col.map to_datetime_coerce))
  ∧ result_time (r :: df) = result_time df
  ∧ ((data_retailer (r :: df)).map Prod.snd).sum
      = r.totalSales + ((data_retailer df).map Prod.snd).sum := by
  refine ⟨?_, ?_, ?_⟩
  · rcases t with ⟨leg, canon⟩
    have h2 : canon = some col := hcanon
    subst h2
    cases leg <;> rfl
  · have hlab : monthLabel r = none := by simp [monthLabel, hnone]
    unfold result_time groupbySum
    rw [show colOptions monthLabel (r :: df) = colOptions monthLabel df from by
      unfold colOptions
      rw [List.filterMap_cons_none hlab]]
    simp only [groupSum_cons, hlab]
    simp
  · rw [data_retailer_sum hall,
      data_retailer_sum (fun x hx => hall x (List.mem_cons_of_mem r hx))]
    simp [total_sales]

/-- Sample row with a missing (NaT) invoice date. -/
def rowNoDate : Row := { rowNY with invoiceDate := none }

/-- C3, witness for the amended statement: a canonical-column table with one
bad and one good cell loads without raising, and a missing-date row vanishes
from the monthly table while adding its 100 dollars to the retailer total. -/
theorem C3_missing_dates_witness :
    load_invoice_dates ⟨none, some [RawCell.bad, RawCell.date 19372]⟩
        = Except.ok (some [none, some 19372])
  ∧ result_time [rowNoDate, rowNY] = result_time [rowNY]
  ∧ ((data_retailer [rowNoDate, rowNY]).map Prod.snd).sum
      = rowNoDate.totalSales + ((data_retailer [rowNY]).map Prod.snd).sum := by
  have h := C3_missing_dates_behaviour ⟨none, some [RawCell.bad, RawCell.date 19372]⟩
    [RawCell.bad, RawCell.date 19372] [rowNY] rowNoDate rfl rfl (by decide)
  exact ⟨h.1, h.2.1, h.2.2⟩

/-! ## Claim theorems: product summary -/

/-- Sample row with product A and 100 dollars of sales. -/
def rowProdA : Row := { rowNY with product := some "A", totalSales := 100 }

/-- Sample row with product B and 100 dollars of sales. -/
def rowProdB : Row := { rowNY with product := some "B", totalSales := 100 }

/-- C6, counterexample. Ties are not broken by stable input order: with two
products tied at 100, the grouped table lists A before B, a stable descending
sort keeps A before B, but `prod_data` returns B before A (pandas reverses a
stable ascending sort for a descending one). -/
theorem C6_counterexample :
    prod_data [rowProdA, rowProdB] = [("B", 100), ("A", 100)]
  ∧ prodSummarySpec [rowProdA, rowProdB] = [("A", 100), ("B", 100)] := by decide

/-- C6, amended. The product summary has at most 10 rows and is sorted
descending (non-strictly) by summed `TotalSales`; tied groups appear in
reverse of the ascending sort order, not in stable input order. -/
theorem C6_top10_sorted_descending (df : List Row) :
    (prod_data df).length ≤ 10
  ∧ List.Sorted (fun a b : String × ℤ => b.2 ≤ a.2) (prod_data df) := by
  constructor
  · unfold prod_data
    rw [List.length_take]
    exact min_le_left _ _
  · unfold prod_data sortValuesDesc
    apply List.Pairwise.sublist (List.take_sublist _ _)
    rw [List.pairwise_reverse]
    exact List.sorted_insertionSort valLe _

/-! ## Claim theorems: KPIs and the formatter -/

/-- C9. The average-order-value KPI is `0` on an empty filtered frame, and the
division `total_sales / total_orders` is evaluated only under the guard
`total_orders > 0`. -/
theorem C9_avg_order_value_guarded (c : Criteria) (df : List Row) :
    (applyFilters c df = [] → avg_order_value (applyFilters c df) = 0)
  ∧ (0 < total_orders (applyFilters c df) →
      avg_order_value (applyFilters c df)
        = (total_sales (applyFilters c df) : ℚ) / (total_orders (applyFilters c df) : ℚ)) := by
  constructor
  · intro h
    rw [h]
    rfl
  · intro h
    unfold avg_order_value
    rw [if_pos h]

/-- C9, witness: an all-excluding selection yields the 0 average, and a
matching selection yields the quotient form. -/
theorem C9_avg_order_value_witness :
    avg_order_value (applyFilters ⟨["East"], [], [], none⟩ [rowNY]) = 0
  ∧ avg_order_value (applyFilters ⟨["West"], ["Foot Locker"], ["New York"], none⟩ [rowNY])
      = (total_sales (applyFilters ⟨["West"], ["Foot Locker"], ["New York"], none⟩ [rowNY]) : ℚ)
        / (total_orders (applyFilters ⟨["West"], ["Foot Locker"], ["New York"], none⟩ [rowNY]) : ℚ) :=
  ⟨(C9_avg_order_value_guarded _ _).1 (by decide),
   (C9_avg_order_value_guarded _ _).2 (by decide)⟩

/-- C8, counterexample. At 2,000,000 the code renders a space between the
number and the magnitude letter, so the output differs from the spec's
literal `"$X.XM"` pattern. -/
theorem C8_counterexample :
    format_sales (some 2000000) = "$2.0 M"
  ∧ formatSalesSpecLiteral (some 2000000) = "$2.0M"
  ∧ format_sales (some 2000000) ≠ formatSalesSpecLiteral (some 2000000) := by decide

/-- C8, amended. The formatter is the pure threshold rendering of the spec
with a space before the magnitude suffix: `"$X.X M"` at or above a million,
`"$X.X K"` at or above a thousand, `"$X"` otherwise. -/
theorem C8_formatter_amended (v : Option ℤ) : format_sales v = formatSalesAmended v := by
  cases v with
  | none => rfl
  | some x =>
    simp only [format_sales, formatSalesAmended]
    by_cases h1 : 1000000 ≤ x
    · simp [h1]
    · by_cases h2 : 1000 ≤ x
      · simp [h1, h2]
      · simp [h1, h2]

/-- C10. The formatter maps a missing (NaN) value to the empty string. -/
theorem C10_format_sales_nan : format_sales none = "" := rfl

end Dash
